import Mathlib

/-!
# Shallow embedding of `src/index.ts` (mcp-claude-hackernews)

The source is a small MCP server exposing five tools over the Hacker News
API.  We embed its pure core:

* `cleanText` (src/index.ts lines 116-124): four sequential global literal
  replacements (entity decoding) followed by a tag-stripping pass with the
  regex `<[^>]*>?` (global).  Strings are modelled as `List Char` wrapped
  in `String`.
* the fetch layer: `axios.get` outcomes are modelled as
  `Except String (Option _)` values (`.error` = request failure / thrown,
  `.ok none` = 2xx with empty body, i.e. JS `null`/`undefined` data);
  `getItemDetails`, `getLatestStories`/`getTopStories`/`getBestStories`
  (all three share one body, `getStories`, applied to different endpoint
  results), `getComments`.
* the tool dispatcher (`CallToolRequestSchema` handler): a state
  transition on the module-global `lastStoriesList` slot.

JS numbers that hold Hacker News ids, scores, limits and indices are
modelled as `Int` (the code only ever produces integers from JSON input in
these positions; a `typeof x === 'number'` test that fails is modelled as
the argument being `none`, which is exactly how the handler's
`isNaN` checks behave on the `NaN` fallback).  `Date.toLocaleString`
(`formatTime`) is locale-dependent, so it is a parameter `fmtTime` of the
environment rather than a fixed function.
-/

namespace HN

/-- One step of JS `String.prototype.replace` with a global literal
pattern: at each position, if the pattern is a prefix, emit the
replacement and continue after the match, else keep the character.  The
`fuel` argument only makes the recursion structural; every call site
passes `fuel = s.length`, which is enough because each step consumes at
least one character and one unit of fuel. -/
def replaceAllGo (pat rep : List Char) : Nat → List Char → List Char
  | _, [] => []
  | 0, s => s
  | fuel + 1, c :: cs =>
    if pat.isPrefixOf (c :: cs) then
      rep ++ replaceAllGo pat rep fuel ((c :: cs).drop pat.length)
    else
      c :: replaceAllGo pat rep fuel cs

/-- JS `s.replace(/pat/g, rep)` for a literal pattern `pat`. -/
def replaceAll (pat rep s : List Char) : List Char :=
  replaceAllGo pat rep s.length s

/-- The tag-stripping regex `<[^>]*>?` (flags `gm`) as a two-state
scanner: outside a tag, `<` enters tag state and is dropped; inside a tag
every character up to and including the first `>` is dropped — and if no
`>` follows, everything to the end of the string is dropped, because the
closing `>` is optional in the regex. -/
def stripTagsAux : Bool → List Char → List Char
  | _, [] => []
  | false, c :: cs =>
    if c = '<' then stripTagsAux true cs else c :: stripTagsAux false cs
  | true, c :: cs =>
    if c = '>' then stripTagsAux false cs else stripTagsAux true cs

/-- The four entity-decoding passes of `cleanText`, in source order:
`&gt;` → `>`, then `&lt;` → `<`, then `&amp;` → `&`, then
`&quot;` → `"`. -/
def decodeEntities (s : List Char) : List Char :=
  replaceAll "&quot;".data "\"".data
    (replaceAll "&amp;".data "&".data
      (replaceAll "&lt;".data "<".data
        (replaceAll "&gt;".data ">".data s)))

/-- `HackerNewsAPI.cleanText` on a present (truthy) string: decode the
four entities, then strip tag-like substrings. -/
def cleanTextStr (s : String) : String :=
  String.mk (stripTagsAux false (decodeEntities s.data))

/-- `HackerNewsAPI.cleanText` (src/index.ts lines 116-124).  The
argument is `string | undefined`; `if (!text) return ''` maps a missing
or empty string to `""` (both `undefined` and `""` are falsy). -/
def cleanText : Option String → String
  | none => ""
  | some s => if s = "" then "" else cleanTextStr s

/-- `pat` occurs as a contiguous substring of `s` (used to state the
"input contains no entity" hypotheses of the algebraic claims). -/
def occursIn (pat : List Char) : List Char → Bool
  | [] => pat.isEmpty
  | c :: cs => pat.isPrefixOf (c :: cs) || occursIn pat cs

/-! ## Data model (src/index.ts lines 8-45)

A raw upstream item.  The source declares separate `Story` and `Comment`
interfaces, but both are produced by the same untyped
`getItemDetails` fetch; we use one record with the union of the fields
(optional where either interface makes them optional or where only one
variant has them).  The `by` field is renamed `author` (`by` is a Lean
keyword). -/

structure Item where
  id : Int
  title : String
  author : String
  time : Int
  url : Option String
  score : Int
  kids : Option (List Int)
  text : Option String
  type : String
deriving DecidableEq, Repr

/-- `FormattedStory` (src/index.ts lines 28-37).  The list branches build
it without `text`; the `hn_story` branch always sets `text`. -/
structure FormattedStory where
  id : Int
  title : String
  author : String
  time : String
  url : Option String
  score : Int
  commentsCount : Nat
  text : Option String := none
deriving DecidableEq, Repr

/-- `FormattedComment` (src/index.ts lines 39-45). -/
structure FormattedComment where
  id : Int
  author : String
  time : String
  text : String
  replies : Nat
deriving DecidableEq, Repr

/-! ## Upstream client (class `HackerNewsAPI`)

An `axios.get` outcome is an `Except String (Option α)`:
`.error msg` models a rejected request (network failure, non-2xx),
`.ok none` a fulfilled request whose parsed body is `null`/`undefined`,
`.ok (some v)` a fulfilled request with data `v`. -/

/-- `HackerNewsAPI.getItemDetails` (lines 87-95): returns
`response.data`, or `null` when the request fails (the `catch` branch
logs and returns `null`; nothing is ever thrown to the caller). -/
def getItemDetails (httpItem : Int → Except String (Option Item))
    (itemId : Int) : Option Item :=
  match httpItem itemId with
  | .error _ => none
  | .ok d => d

/-- JS `array.slice(0, endIdx)`: a negative end counts from the end of
the array (clamped at 0), a non-negative end is clamped at the length. -/
def jsSlice {α : Type} (l : List α) (endIdx : Int) : List α :=
  let fin : Int :=
    if endIdx < 0 then max ((l.length : Int) + endIdx) 0
    else min endIdx (l.length : Int)
  l.take fin.toNat

/-- Common body of `getLatestStories` / `getTopStories` /
`getBestStories` (lines 48-85; the three methods are textually identical
except for the endpoint): on a failed id-list request return `[]`
(the `catch` branch); otherwise take `storyIds = response.data || []`,
slice to `limit`, fetch each id (`Promise.all` keeps the id order), and
keep the fulfilled results whose `type` is `"story"` (the source filter
`story !== null && story.type === 'story'` is split into the
`filterMap`, which drops the nulls, and the `filter` on the type). -/
def getStories (httpList : Except String (Option (List Int)))
    (httpItem : Int → Except String (Option Item)) (limit : Int) :
    List Item :=
  match httpList with
  | .error _ => []
  | .ok d =>
    let storyIds := d.getD []
    (((jsSlice storyIds limit).filterMap (getItemDetails httpItem)).filter
      (fun st => st.type == "story"))

/-- `HackerNewsAPI.getComments` (lines 97-109): empty (or missing,
defaulted to `[]`) input returns `[]` before any fetch; otherwise fetch
every id and drop the `null` results (no type filter here). -/
def getComments (fetchItem : Int → Option Item) (commentIds : List Int) :
    List Item :=
  if commentIds.isEmpty then []
  else commentIds.filterMap fetchItem

/-! ## Formatting (handler-side projections and the three renderers) -/

/-- JS `x || 'N/A'` on an optional string field. -/
def jsOrNA : Option String → String
  | none => "N/A"
  | some u => if u = "" then "N/A" else u

/-- The projection built inline in the three list branches
(e.g. lines 238-246): `commentsCount = story.kids?.length || 0`. -/
def toFormattedStory (fmtTime : Int → String) (story : Item) :
    FormattedStory :=
  { id := story.id, title := story.title, author := story.author,
    time := fmtTime story.time, url := story.url, score := story.score,
    commentsCount := (story.kids.getD []).length }

/-- The projection built inline in the `hn_comments` branch
(lines 367-373): `text` is cleaned, `replies = kids ? kids.length : 0`. -/
def toFormattedComment (fmtTime : Int → String) (c : Item) :
    FormattedComment :=
  { id := c.id, author := c.author, time := fmtTime c.time,
    text := cleanText c.text,
    replies := match c.kids with | some ks => ks.length | none => 0 }

/-- One numbered block of `formatStoriesAsText` (lines 396-404). -/
def storyBlock (idx : Nat) (story : FormattedStory) : String :=
  toString (idx + 1) ++ ". " ++ story.title ++
  "\n   ID: " ++ toString story.id ++
  "\n   By: " ++ story.author ++
  "\n   Published: " ++ story.time ++
  "\n   Score: " ++ toString story.score ++
  "\n   Comments: " ++ toString story.commentsCount ++
  "\n   URL: " ++ jsOrNA story.url ++
  "\n   ------------------------------"

/-- `formatStoriesAsText` (lines 391-406). -/
def formatStoriesAsText (stories : List FormattedStory) : String :=
  if stories.length = 0 then "No stories found."
  else String.intercalate "\n\n" (stories.enum.map (fun p => storyBlock p.1 p.2))

/-- `formatStoryAsText` (lines 408-426); the `if (!story)` guard is
unreachable in the source (the argument is always an object) and is not
modelled. -/
def formatStoryAsText (story : FormattedStory) : String :=
  let base := "Title: " ++ story.title ++
    "\nID: " ++ toString story.id ++
    "\nBy: " ++ story.author ++
    "\nPublished: " ++ story.time ++
    "\nScore: " ++ toString story.score ++
    "\nComments: " ++ toString story.commentsCount ++
    "\nURL: " ++ jsOrNA story.url
  match story.text with
  | none => base
  | some t => if t = "" then base else base ++ "\n\nContent:\n" ++ t

/-- One numbered block of `formatCommentsAsText` (lines 435-440). -/
def commentBlock (idx : Nat) (c : FormattedComment) : String :=
  toString (idx + 1) ++ ". Comment by " ++ c.author ++ " at " ++ c.time ++
  ":\n   \"" ++ c.text ++ "\"\n   " ++
  (if 0 < c.replies then "(" ++ toString c.replies ++ " replies)"
   else "(no replies)") ++
  "\n   ------------------------------"

/-- `formatCommentsAsText` (lines 428-443). -/
def formatCommentsAsText (storyTitle : String)
    (comments : List FormattedComment) : String :=
  if comments.length = 0 then "No comments found."
  else
    let header := "Comments for \"" ++ storyTitle ++ "\" (Total: " ++
      toString comments.length ++ "):\n"
    header ++ "\n" ++
      String.intercalate "\n\n"
        (comments.enum.map (fun p => commentBlock p.1 p.2))

/-! ## Tool dispatcher (`CallToolRequestSchema` handler, lines 230-389) -/

/-- The errors the handler throws, with their exact message strings in
`hnErrorMessage`. -/
inductive HNError where
  | notANumber
  | notFound (id : Int)
  | idRequired
  | invalidIndex
  | unknownTool (name : String)
deriving DecidableEq, Repr

/-- The message string of each thrown `Error`. -/
def hnErrorMessage : HNError → String
  | .notANumber => "Story ID must be a number"
  | .notFound id => "Story with ID " ++ toString id ++ " not found"
  | .idRequired => "Either a story ID or a story index is required"
  | .invalidIndex => "Invalid story index or ID provided"
  | .unknownTool name => "Unknown tool: " ++ name

/-- The ambient effects of one tool call: the three id-list endpoints,
the per-item endpoint, and the locale-dependent
`formatTime` = `new Date(t * 1000).toLocaleString()` (lines 111-114),
which we keep abstract as `fmtTime`. -/
structure Env where
  httpNew : Except String (Option (List Int))
  httpTop : Except String (Option (List Int))
  httpBest : Except String (Option (List Int))
  httpItem : Int → Except String (Option Item)
  fmtTime : Int → String

/-- The argument bag of a tool call.  A field is `some n` exactly when
the JS argument passes its `typeof x === 'number'` test (otherwise the
handler substitutes `NaN` or the default, which we model as `none`). -/
structure ToolArgs where
  limit : Option Int := none
  story_id : Option Int := none
  story_index : Option Int := none

/-- The module-global mutable state (line 129): `lastStoriesList`. -/
structure ServerState where
  lastStoriesList : List FormattedStory
deriving DecidableEq, Repr

/-- Target-id resolution of the `hn_comments` branch (lines 330-348):
the initial guard throws when both arguments are `NaN`; an explicit
numeric `story_id` wins; else a numeric in-range 1-based `story_index`
selects from the session slot; else the invalid-index error.  The final
`isNaN(targetStoryId)` re-check of the source can never fire (both
sources of `targetStoryId` are numbers) and has no `Int` counterpart. -/
def resolveTargetStoryId (slot : List FormattedStory)
    (storyId? storyIndex? : Option Int) : Except HNError Int :=
  match storyId?, storyIndex? with
  | none, none => .error .idRequired
  | some sid, _ => .ok sid
  | none, some idx =>
    if 0 < idx ∧ idx ≤ (slot.length : Int) then
      match slot.get? (idx - 1).toNat with
      | some fs => .ok fs.id
      | none => .error .invalidIndex  -- unreachable: the guard bounds idx
    else .error .invalidIndex

/-- The `hn_story` branch (lines 301-328): non-numeric `story_id` throws
before any fetch; a fulfilled-but-absent item throws the not-found
error naming the id; otherwise the formatted detail text is returned.
The source `text: story.text ? api.cleanText(story.text) : ''` agrees
with `cleanText story.text` because `cleanText` itself maps the falsy
inputs to `''`. -/
def hnStoryResult (env : Env) (storyId? : Option Int) :
    Except HNError String :=
  match storyId? with
  | none => .error .notANumber
  | some sid =>
    match getItemDetails env.httpItem sid with
    | none => .error (.notFound sid)
    | some story =>
      .ok (formatStoryAsText
        { id := story.id, title := story.title, author := story.author,
          time := env.fmtTime story.time, url := story.url,
          text := some (cleanText story.text),
          score := story.score,
          commentsCount := (story.kids.getD []).length })

/-- The short-circuit text of the `hn_comments` branch (line 360). -/
def noCommentsText (story : Item) : String :=
  "No comments found for story \"" ++ story.title ++ "\" (ID: " ++
    toString story.id ++ ")"

/-- The `hn_comments` branch (lines 329-383).  Besides the response
text, the result carries the list of child ids that were passed to
`getComments` — `[]` on the no-kids short-circuit, where the source
returns before any comment fetch. -/
def hnCommentsResult (env : Env) (slot : List FormattedStory)
    (storyId? storyIndex? : Option Int) :
    Except HNError (String × List Int) :=
  match resolveTargetStoryId slot storyId? storyIndex? with
  | .error e => .error e
  | .ok targetId =>
    match getItemDetails env.httpItem targetId with
    | none => .error (.notFound targetId)
    | some story =>
      match story.kids with
      | none => .ok (noCommentsText story, [])
      | some kids =>
        if kids.length = 0 then .ok (noCommentsText story, [])
        else
          let comments := getComments (getItemDetails env.httpItem) kids
          .ok (formatCommentsAsText story.title
                (comments.map (toFormattedComment env.fmtTime)), kids)

/-- One full dispatch (lines 230-389) as a state transition: the three
list branches compute the formatted list, assign it to
`lastStoriesList`, and return the rendered text; `hn_story` and
`hn_comments` leave the state alone; an unknown name throws. -/
def handleTool (env : Env) (st : ServerState) (name : String)
    (args : ToolArgs) : ServerState × Except HNError String :=
  if name == "hn_latest" then
    let limit := args.limit.getD 10
    let formatted :=
      (getStories env.httpNew env.httpItem limit).map
        (toFormattedStory env.fmtTime)
    (⟨formatted⟩, .ok (formatStoriesAsText formatted))
  else if name == "hn_top" then
    let limit := args.limit.getD 10
    let formatted :=
      (getStories env.httpTop env.httpItem limit).map
        (toFormattedStory env.fmtTime)
    (⟨formatted⟩, .ok (formatStoriesAsText formatted))
  else if name == "hn_best" then
    let limit := args.limit.getD 10
    let formatted :=
      (getStories env.httpBest env.httpItem limit).map
        (toFormattedStory env.fmtTime)
    (⟨formatted⟩, .ok (formatStoriesAsText formatted))
  else if name == "hn_story" then
    (st, hnStoryResult env args.story_id)
  else if name == "hn_comments" then
    (st, (hnCommentsResult env st.lastStoriesList args.story_id
            args.story_index).map Prod.fst)
  else
    (st, .error (.unknownTool name))

/-- The id-list endpoint each list tool queries. -/
def listEndpointOf (env : Env) (name : String) :
    Except String (Option (List Int)) :=
  if name == "hn_latest" then env.httpNew
  else if name == "hn_top" then env.httpTop
  else env.httpBest

/-! ## Concrete fixtures used by the witness theorems -/

/-- A stored story record. -/
def fsEx : FormattedStory :=
  { id := 42, title := "First", author := "alice", time := "now",
    url := none, score := 1, commentsCount := 0 }

/-- An environment in which every upstream request fails. -/
def envDown : Env :=
  { httpNew := .error "down", httpTop := .error "down",
    httpBest := .error "down", httpItem := fun _ => .error "down",
    fmtTime := fun t => toString t }

/-- A story item without a `kids` field. -/
def itemNoKids : Item :=
  { id := 7, title := "Quiet", author := "bob", time := 0, url := none,
    score := 3, kids := none, text := none, type := "story" }

/-- An environment in which only item 7 (a kid-less story) exists. -/
def envNoKids : Env :=
  { httpNew := .error "down", httpTop := .error "down",
    httpBest := .error "down",
    httpItem := fun i => if i == 7 then .ok (some itemNoKids) else .ok none,
    fmtTime := fun t => toString t }

/-- A story item with the given id. -/
def storyEx (i : Int) : Item :=
  { id := i, title := "Story", author := "carol", time := 0, url := none,
    score := 5, kids := some [100, 101], text := none, type := "story" }

/-- An environment whose id lists are `[1, 2]` and in which every item
fetch succeeds. -/
def envTwo : Env :=
  { httpNew := .ok (some [1, 2]), httpTop := .ok (some [1, 2]),
    httpBest := .ok (some [1, 2]),
    httpItem := fun i => .ok (some (storyEx i)),
    fmtTime := fun t => toString t }

/-- An environment whose newest-id list is `[1, 2, 3]`. -/
def envThree : Env :=
  { httpNew := .ok (some [1, 2, 3]), httpTop := .error "x",
    httpBest := .error "x",
    httpItem := fun i => .ok (some (storyEx i)),
    fmtTime := fun _ => "t" }

end HN

namespace HN

/-! ## General lemmas about the embedded definitions -/

theorem replaceAllGo_of_not_occurs (pat rep : List Char) :
    ∀ (fuel : Nat) (s : List Char), occursIn pat s = false →
      replaceAllGo pat rep fuel s = s := by
  intro fuel
  induction fuel with
  | zero => intro s _; cases s <;> rfl
  | succ n ih =>
    intro s h
    cases s with
    | nil => rfl
    | cons c cs =>
      have h' : (pat.isPrefixOf (c :: cs) || occursIn pat cs) = false := h
      rw [Bool.or_eq_false_iff] at h'
      rw [replaceAllGo, if_neg (by simp [h'.1]), ih cs h'.2]

/-- A literal global replace whose pattern never occurs is the
identity. -/
theorem replaceAll_of_not_occurs (pat rep s : List Char)
    (h : occursIn pat s = false) : replaceAll pat rep s = s :=
  replaceAllGo_of_not_occurs pat rep s.length s h

theorem stripTagsAux_false_of_not_mem (s : List Char) (h : '<' ∉ s) :
    stripTagsAux false s = s := by
  induction s with
  | nil => rfl
  | cons c cs ih =>
    have hc : ¬ c = '<' := fun hc => h (hc ▸ List.mem_cons_self c cs)
    rw [stripTagsAux, if_neg hc, ih (fun hm => h (List.mem_cons_of_mem c hm))]

theorem stripTagsAux_true_of_not_mem (b : List Char) (h : '>' ∉ b) :
    stripTagsAux true b = [] := by
  induction b with
  | nil => rfl
  | cons c cs ih =>
    have hc : ¬ c = '>' := fun hc => h (hc ▸ List.mem_cons_self c cs)
    rw [stripTagsAux, if_neg hc, ih (fun hm => h (List.mem_cons_of_mem c hm))]

/-- An unterminated `<` swallows the rest of the string: stripping
`a ++ '<' :: b` with no `>` in `b` equals stripping `a` alone. -/
theorem stripTagsAux_append_unclosed (b : List Char) (hb : '>' ∉ b) :
    ∀ (st : Bool) (a : List Char),
      stripTagsAux st (a ++ '<' :: b) = stripTagsAux st a := by
  intro st a
  induction a generalizing st with
  | nil =>
    cases st with
    | false =>
      simpa [stripTagsAux] using stripTagsAux_true_of_not_mem b hb
    | true =>
      have : ¬ '<' = '>' := by decide
      simpa [stripTagsAux, this] using stripTagsAux_true_of_not_mem b hb
  | cons c cs ih =>
    cases st with
    | false =>
      by_cases hc : c = '<' <;> simp [stripTagsAux, hc, ih]
    | true =>
      by_cases hc : c = '>' <;> simp [stripTagsAux, hc, ih]

theorem string_mk_data (s : String) : String.mk s.data = s := by
  cases s
  rfl

/-- `cleanText` fixes every string that contains none of the four
entities and no `<`. -/
theorem cleanText_eq_of_clean (s : String)
    (h1 : occursIn "&gt;".data s.data = false)
    (h2 : occursIn "&lt;".data s.data = false)
    (h3 : occursIn "&amp;".data s.data = false)
    (h4 : occursIn "&quot;".data s.data = false)
    (h5 : '<' ∉ s.data) :
    cleanText (some s) = s := by
  by_cases hs : s = ""
  · simp [cleanText, hs]
  · rw [cleanText, if_neg hs, cleanTextStr]
    rw [decodeEntities, replaceAll_of_not_occurs _ _ _ h1,
      replaceAll_of_not_occurs _ _ _ h2, replaceAll_of_not_occurs _ _ _ h3,
      replaceAll_of_not_occurs _ _ _ h4,
      stripTagsAux_false_of_not_mem _ h5, string_mk_data]

/-- The `hn_latest` branch of the dispatcher, reduced. -/
theorem handleTool_latest_red (env : Env) (st : ServerState)
    (args : ToolArgs) :
    handleTool env st "hn_latest" args =
      (⟨(getStories env.httpNew env.httpItem (args.limit.getD 10)).map
          (toFormattedStory env.fmtTime)⟩,
       .ok (formatStoriesAsText
         ((getStories env.httpNew env.httpItem (args.limit.getD 10)).map
           (toFormattedStory env.fmtTime)))) := rfl

/-- The `hn_top` branch of the dispatcher, reduced. -/
theorem handleTool_top_red (env : Env) (st : ServerState)
    (args : ToolArgs) :
    handleTool env st "hn_top" args =
      (⟨(getStories env.httpTop env.httpItem (args.limit.getD 10)).map
          (toFormattedStory env.fmtTime)⟩,
       .ok (formatStoriesAsText
         ((getStories env.httpTop env.httpItem (args.limit.getD 10)).map
           (toFormattedStory env.fmtTime)))) := rfl

/-- The `hn_best` branch of the dispatcher, reduced. -/
theorem handleTool_best_red (env : Env) (st : ServerState)
    (args : ToolArgs) :
    handleTool env st "hn_best" args =
      (⟨(getStories env.httpBest env.httpItem (args.limit.getD 10)).map
          (toFormattedStory env.fmtTime)⟩,
       .ok (formatStoriesAsText
         ((getStories env.httpBest env.httpItem (args.limit.getD 10)).map
           (toFormattedStory env.fmtTime)))) := rfl

open List in
/-- Core facts about one list fetch with a fulfilled id list and a
non-negative limit: at most `limit` records, order-preserving selection
from the full id list, and the `commentsCount` computation. -/
theorem getStories_formatted_spec
    (httpItem : Int → Except String (Option Item)) (fmtTime : Int → String)
    (limit : Int) (ids : List Int) (h0 : 0 ≤ limit) :
    (((getStories (.ok (some ids)) httpItem limit).map
        (toFormattedStory fmtTime)).length : Int) ≤ limit ∧
    ((getStories (.ok (some ids)) httpItem limit).map
        (toFormattedStory fmtTime)) <+
      ((ids.filterMap (getItemDetails httpItem)).filter
        (fun st => st.type == "story")).map (toFormattedStory fmtTime) ∧
    (∀ r ∈ (getStories (.ok (some ids)) httpItem limit).map
        (toFormattedStory fmtTime),
      ∃ i ∈ ids, ∃ it, getItemDetails httpItem i = some it ∧
        it.type = "story" ∧ r = toFormattedStory fmtTime it ∧
        r.commentsCount = (it.kids.getD []).length) := by
  have hgs : getStories (.ok (some ids)) httpItem limit =
      ((jsSlice ids limit).filterMap (getItemDetails httpItem)).filter
        (fun st => st.type == "story") := rfl
  have hsub : jsSlice ids limit <+ ids := by
    rw [jsSlice]
    exact List.take_sublist _ _
  have hlen : (jsSlice ids limit).length ≤ limit.toNat := by
    simp only [jsSlice, List.length_take]
    rw [if_neg (not_lt.mpr h0)]
    omega
  rw [hgs]
  refine ⟨?_, ?_, ?_⟩
  · rw [List.length_map]
    have h1 : (((jsSlice ids limit).filterMap
        (getItemDetails httpItem)).filter
          (fun st => st.type == "story")).length ≤ limit.toNat :=
      le_trans (le_trans (List.length_filter_le _ _)
        (List.length_filterMap_le _ _)) hlen
    omega
  · exact ((hsub.filterMap _).filter _).map _
  · intro r hr
    rw [List.mem_map] at hr
    obtain ⟨it, hit, rfl⟩ := hr
    rw [List.mem_filter] at hit
    obtain ⟨hitmem, htype⟩ := hit
    rw [List.mem_filterMap] at hitmem
    obtain ⟨i, hi, hgi⟩ := hitmem
    exact ⟨i, List.Sublist.mem hi hsub, it, hgi, beq_iff_eq.mp htype,
      rfl, rfl⟩

/-! ## Claim theorems -/

/-- C1, counterexample: on input `"&lt;b&gt;hi&lt;/b&gt;"`,
`cleanText` does NOT return `"<b>hi</b>"`: the decoded tags do not pass
through the tag-stripping pass. -/
theorem cleanText_entity_encoded_tags_counterexample :
    cleanText (some "&lt;b&gt;hi&lt;/b&gt;") ≠ "<b>hi</b>" := by decide

/-- C1, amended: entity decoding runs before tag stripping, so after
decoding `"&lt;b&gt;hi&lt;/b&gt;"` to `"<b>hi</b>"`, the strip pass
removes the now-literal `<b>` and `</b>` tags; `cleanText` returns
`"hi"` with the decoded tags stripped. -/
theorem cleanText_entity_encoded_tags_stripped :
    cleanText (some "&lt;b&gt;hi&lt;/b&gt;") = "hi" := by decide

/-- C8: `cleanText` maps an absent input to the empty string; it is
idempotent on every input containing none of the four entities and no
`<` character (on such inputs it is the identity, by
`cleanText_eq_of_clean`); and on `"A &amp; B <i>ok</i>"` it returns
`"A & B ok"`.  The decode order and the single strip pass are the
definition `cleanText` itself. -/
theorem cleanText_algebraic_spec (s : String)
    (h1 : occursIn "&gt;".data s.data = false)
    (h2 : occursIn "&lt;".data s.data = false)
    (h3 : occursIn "&amp;".data s.data = false)
    (h4 : occursIn "&quot;".data s.data = false)
    (h5 : '<' ∉ s.data) :
    cleanText none = "" ∧
    cleanText (some (cleanText (some s))) = cleanText (some s) ∧
    cleanText (some "A &amp; B <i>ok</i>") = "A & B ok" := by
  have hfix := cleanText_eq_of_clean s h1 h2 h3 h4 h5
  refine ⟨rfl, ?_, by decide⟩
  rw [hfix, hfix]

/-- C8, witness at the entity- and tag-free input
`"plain text, no entities"`. -/
theorem cleanText_algebraic_spec_witness :
    cleanText none = "" ∧
    cleanText (some (cleanText (some "plain text, no entities"))) =
      cleanText (some "plain text, no entities") ∧
    cleanText (some "A &amp; B <i>ok</i>") = "A & B ok" :=
  cleanText_algebraic_spec "plain text, no entities"
    (by decide) (by decide) (by decide) (by decide) (by decide)

/-- C10: when the decoded input splits as `a ++ '<' :: b` with no `>`
anywhere in `b`, the optional closing `>` of the strip regex makes
`cleanText` drop everything from that `<` to the end of the string: the
result is the stripped prefix `a` alone. -/
theorem cleanText_unclosed_lt_truncates (s : String) (a b : List Char)
    (hdec : decodeEntities s.data = a ++ '<' :: b)
    (hb : '>' ∉ b) :
    cleanText (some s) = String.mk (stripTagsAux false a) := by
  by_cases hs : s = ""
  · exfalso
    rw [hs] at hdec
    have h0 : ([] : List Char) = a ++ '<' :: b := hdec
    simp at h0
  · rw [cleanText, if_neg hs, cleanTextStr, hdec,
      stripTagsAux_append_unclosed b hb]

/-- C10, witness: `cleanText "1 < 2" = "1 "` and
`cleanText "1 &lt; 2" = "1 "`. -/
theorem cleanText_unclosed_lt_truncates_witness :
    cleanText (some "1 < 2") = "1 " ∧ cleanText (some "1 &lt; 2") = "1 " :=
  ⟨by
    have h := cleanText_unclosed_lt_truncates "1 < 2" "1 ".data " 2".data
      (by decide) (by decide)
    simpa using h,
   by
    have h := cleanText_unclosed_lt_truncates "1 &lt; 2" "1 ".data " 2".data
      (by decide) (by decide)
    simpa using h⟩

/-- C3: in `hn_comments`, a numeric `story_id` is always the target,
whatever `story_index` holds; otherwise an in-range 1-based
`story_index` targets the id of the indexed stored story and the call
proceeds exactly as if that id had been passed; an out-of-range index
(which subsumes the empty-slot case) yields the invalid-index error;
both arguments non-numeric yields the "required" error; and the two
error messages are the source's strings. -/
theorem hn_comments_target_resolution :
    (∀ (env : Env) (slot : List FormattedStory) (sid : Int)
       (idx? : Option Int),
       resolveTargetStoryId slot (some sid) idx? = .ok sid ∧
       hnCommentsResult env slot (some sid) idx? =
         hnCommentsResult env slot (some sid) none) ∧
    (∀ (env : Env) (slot : List FormattedStory) (idx : Int)
       (fs : FormattedStory),
       1 ≤ idx → idx ≤ (slot.length : Int) →
       slot.get? (idx - 1).toNat = some fs →
       resolveTargetStoryId slot none (some idx) = .ok fs.id ∧
       hnCommentsResult env slot none (some idx) =
         hnCommentsResult env slot (some fs.id) none) ∧
    (∀ (env : Env) (slot : List FormattedStory) (idx : Int),
       (idx < 1 ∨ (slot.length : Int) < idx) →
       hnCommentsResult env slot none (some idx) = .error .invalidIndex) ∧
    (∀ (env : Env) (slot : List FormattedStory),
       hnCommentsResult env slot none none = .error .idRequired) ∧
    hnErrorMessage .invalidIndex = "Invalid story index or ID provided" ∧
    hnErrorMessage .idRequired =
      "Either a story ID or a story index is required" := by
  refine ⟨?_, ?_, ?_, ?_, rfl, rfl⟩
  · intro env slot sid idx?
    cases idx? <;> exact ⟨rfl, rfl⟩
  · intro env slot idx fs h1 h2 hget
    have hres : resolveTargetStoryId slot none (some idx) = .ok fs.id := by
      rw [resolveTargetStoryId, if_pos ⟨by omega, h2⟩, hget]
    refine ⟨hres, ?_⟩
    rw [hnCommentsResult, hres, hnCommentsResult, resolveTargetStoryId]
  · intro env slot idx h
    have hres : resolveTargetStoryId slot none (some idx) =
        .error .invalidIndex := by
      rw [resolveTargetStoryId, if_neg (by omega)]
    rw [hnCommentsResult, hres]
  · intro env slot
    rfl

/-- C3, witness: index 1 into a one-element slot resolves to that
record's id, and a call with neither argument errors. -/
theorem hn_comments_target_resolution_witness :
    resolveTargetStoryId [fsEx] none (some 1) = .ok 42 ∧
    hnCommentsResult envDown [] none none = .error .idRequired :=
  ⟨(hn_comments_target_resolution.2.1 envDown [fsEx] 1 fsEx
      (by decide) (by decide) rfl).1,
   hn_comments_target_resolution.2.2.2.1 envDown []⟩

/-- C4: when the resolved story has no `kids` field (or an empty one),
`hn_comments` returns exactly
`No comments found for story "<title>" (ID: <id>)` and performs no
comment fetch: the list of child ids passed to `getComments` is `[]`,
and at the dispatcher level the call returns that text with the state
untouched. -/
theorem hn_comments_no_kids_short_circuit (env : Env)
    (slot : List FormattedStory) (storyId? storyIndex? : Option Int)
    (sid : Int) (it : Item)
    (hres : resolveTargetStoryId slot storyId? storyIndex? = .ok sid)
    (hfetch : getItemDetails env.httpItem sid = some it)
    (hkids : it.kids = none ∨ it.kids = some []) :
    hnCommentsResult env slot storyId? storyIndex? =
      .ok ("No comments found for story \"" ++ it.title ++ "\" (ID: " ++
            toString it.id ++ ")", []) ∧
    handleTool env ⟨slot⟩ "hn_comments"
        { story_id := storyId?, story_index := storyIndex? } =
      (⟨slot⟩, .ok ("No comments found for story \"" ++ it.title ++
        "\" (ID: " ++ toString it.id ++ ")")) := by
  have hmain : hnCommentsResult env slot storyId? storyIndex? =
      .ok ("No comments found for story \"" ++ it.title ++ "\" (ID: " ++
            toString it.id ++ ")", []) := by
    rw [hnCommentsResult, hres]
    dsimp only
    rw [hfetch]
    dsimp only
    rcases hkids with h | h <;> rw [h] <;> rfl
  refine ⟨hmain, ?_⟩
  have hdisp : handleTool env ⟨slot⟩ "hn_comments"
      { story_id := storyId?, story_index := storyIndex? } =
      (⟨slot⟩, (hnCommentsResult env slot storyId? storyIndex?).map
        Prod.fst) := rfl
  rw [hdisp, hmain]
  rfl

/-- C4, witness: story 7 has no kids, so the call short-circuits with
the literal text and an empty comment-fetch list. -/
theorem hn_comments_no_kids_short_circuit_witness :
    hnCommentsResult envNoKids [] (some 7) none =
      .ok ("No comments found for story \"Quiet\" (ID: 7)", []) := by
  have h := (hn_comments_no_kids_short_circuit envNoKids [] (some 7) none 7
    itemNoKids rfl rfl (Or.inl rfl)).1
  simpa using h

/-- C5: `hn_story` with a non-numeric `story_id` fails with
`Story ID must be a number` identically in every environment — i.e.
before and independent of any item fetch; and when the fetch of a
numeric id yields no item, it fails with the error whose message names
that id. -/
theorem hn_story_bad_arg_and_not_found :
    (∀ (env env' : Env),
       hnStoryResult env none = .error .notANumber ∧
       hnStoryResult env none = hnStoryResult env' none) ∧
    hnErrorMessage .notANumber = "Story ID must be a number" ∧
    (∀ (env : Env) (sid : Int),
       getItemDetails env.httpItem sid = none →
       hnStoryResult env (some sid) = .error (.notFound sid) ∧
       hnErrorMessage (.notFound sid) =
         "Story with ID " ++ toString sid ++ " not found") := by
  refine ⟨fun env env' => ⟨rfl, rfl⟩, rfl, ?_⟩
  intro env sid h
  constructor
  · simp only [hnStoryResult, h]
  · rfl

/-- C5, witness: in the all-failing environment, a missing id and a
vanished item 5 produce the two errors. -/
theorem hn_story_bad_arg_and_not_found_witness :
    hnStoryResult envDown none = .error .notANumber ∧
    hnStoryResult envDown (some 5) = .error (.notFound 5) :=
  ⟨(hn_story_bad_arg_and_not_found.1 envDown envDown).1,
   (hn_story_bad_arg_and_not_found.2.2 envDown 5 rfl).1⟩

/-- C6: the upstream client never propagates a fetch failure:
`getItemDetails` is `none` whenever the item request errors, a list
fetch is `[]` whenever the id-list request errors, and `getComments`
on an empty id list is `[]` and does not depend on the fetch function
at all (no item fetch is performed). -/
theorem upstream_failure_containment :
    (∀ (httpItem : Int → Except String (Option Item)) (id : Int)
       (e : String),
       httpItem id = .error e → getItemDetails httpItem id = none) ∧
    (∀ (httpItem : Int → Except String (Option Item)) (limit : Int)
       (e : String),
       getStories (.error e) httpItem limit = []) ∧
    (∀ (fetchItem fetchItem' : Int → Option Item),
       getComments fetchItem [] = [] ∧
       getComments fetchItem [] = getComments fetchItem' []) := by
  refine ⟨?_, fun _ _ _ => rfl, fun _ _ => ⟨rfl, rfl⟩⟩
  intro httpItem id e h
  rw [getItemDetails, h]

/-- C6, witness at a concrete failing fetch. -/
theorem upstream_failure_containment_witness :
    getItemDetails (fun _ => .error "boom") 3 = none ∧
    getStories (.error "boom") (fun _ => .error "boom") 10 = [] ∧
    getComments (fun _ => none) [] = [] :=
  ⟨upstream_failure_containment.1 (fun _ => .error "boom") 3 "boom" rfl,
   upstream_failure_containment.2.1 (fun _ => .error "boom") 10 "boom",
   (upstream_failure_containment.2.2 (fun _ => none) (fun _ => none)).1⟩

open List in
/-- C2: for any of the three list tools, any environment, any
non-negative `limit ≤ 50` and any fulfilled upstream id list, the call
stores (and renders) at most `limit` story records, selected from the
records of the full id list without reordering (a sublist), each with
`commentsCount` equal to the length of its story's `kids` (or `0` when
absent); and an erroring id-list request yields the empty list and the
"No stories found." text, not an error. -/
theorem hn_list_ops_spec (env : Env) (st : ServerState) (name : String)
    (args : ToolArgs)
    (hname : name = "hn_latest" ∨ name = "hn_top" ∨ name = "hn_best") :
    (∀ (limit : Int) (ids : List Int), args.limit = some limit →
      0 ≤ limit → limit ≤ 50 → listEndpointOf env name = .ok (some ids) →
      (((handleTool env st name args).1.lastStoriesList).length : Int)
          ≤ limit ∧
      (handleTool env st name args).1.lastStoriesList <+
        ((ids.filterMap (getItemDetails env.httpItem)).filter
          (fun it => it.type == "story")).map (toFormattedStory env.fmtTime) ∧
      (∀ r ∈ (handleTool env st name args).1.lastStoriesList,
        ∃ i ∈ ids, ∃ it, getItemDetails env.httpItem i = some it ∧
          it.type = "story" ∧ r = toFormattedStory env.fmtTime it ∧
          r.commentsCount = (it.kids.getD []).length) ∧
      (handleTool env st name args).2 =
        .ok (formatStoriesAsText
          ((handleTool env st name args).1.lastStoriesList))) ∧
    (∀ e, listEndpointOf env name = .error e →
      handleTool env st name args = (⟨[]⟩, .ok "No stories found.")) := by
  constructor
  · intro limit ids hlim h0 h50 hok
    have hspec := getStories_formatted_spec env.httpItem env.fmtTime limit
      ids h0
    rcases hname with h | h | h <;> subst h
    · have hok' : env.httpNew = .ok (some ids) := hok
      have hform : (handleTool env st "hn_latest" args).1.lastStoriesList =
          (getStories (.ok (some ids)) env.httpItem limit).map
            (toFormattedStory env.fmtTime) := by
        rw [handleTool_latest_red, hlim, hok']
        rfl
      refine ⟨?_, ?_, ?_, ?_⟩
      · rw [hform]; exact hspec.1
      · rw [hform]; exact hspec.2.1
      · rw [hform]; exact hspec.2.2
      · rw [handleTool_latest_red]
    · have hok' : env.httpTop = .ok (some ids) := hok
      have hform : (handleTool env st "hn_top" args).1.lastStoriesList =
          (getStories (.ok (some ids)) env.httpItem limit).map
            (toFormattedStory env.fmtTime) := by
        rw [handleTool_top_red, hlim, hok']
        rfl
      refine ⟨?_, ?_, ?_, ?_⟩
      · rw [hform]; exact hspec.1
      · rw [hform]; exact hspec.2.1
      · rw [hform]; exact hspec.2.2
      · rw [handleTool_top_red]
    · have hok' : env.httpBest = .ok (some ids) := hok
      have hform : (handleTool env st "hn_best" args).1.lastStoriesList =
          (getStories (.ok (some ids)) env.httpItem limit).map
            (toFormattedStory env.fmtTime) := by
        rw [handleTool_best_red, hlim, hok']
        rfl
      refine ⟨?_, ?_, ?_, ?_⟩
      · rw [hform]; exact hspec.1
      · rw [hform]; exact hspec.2.1
      · rw [hform]; exact hspec.2.2
      · rw [handleTool_best_red]
  · intro e he
    rcases hname with h | h | h <;> subst h
    · have he' : env.httpNew = .error e := he
      rw [handleTool_latest_red, he']
      rfl
    · have he' : env.httpTop = .error e := he
      rw [handleTool_top_red, he']
      rfl
    · have he' : env.httpBest = .error e := he
      rw [handleTool_best_red, he']
      rfl

/-- C2, witness: `hn_top` with limit 2 over the two-id environment
stores at most two records. -/
theorem hn_list_ops_spec_witness :
    (((handleTool envTwo ⟨[]⟩ "hn_top"
        { limit := some 2 }).1.lastStoriesList).length : Int) ≤ 2 :=
  ((hn_list_ops_spec envTwo ⟨[]⟩ "hn_top" { limit := some 2 }
    (Or.inr (Or.inl rfl))).1 2 [1, 2] rfl (by decide) (by decide) rfl).1

/-- C9: the session slot is written only by the three list tools — every
other tool name (in particular `hn_story` and `hn_comments`, and
unknown names) leaves the state unchanged; each list tool replaces the
slot wholesale with the newly formatted list, independently of the
previous state; and when the list fetch errors, the slot becomes the
empty list. -/
theorem session_slot_frame :
    (∀ (env : Env) (st : ServerState) (name : String) (args : ToolArgs),
      name ≠ "hn_latest" → name ≠ "hn_top" → name ≠ "hn_best" →
      (handleTool env st name args).1 = st) ∧
    (∀ (env : Env) (st st' : ServerState) (name : String) (args : ToolArgs),
      (name = "hn_latest" ∨ name = "hn_top" ∨ name = "hn_best") →
      (handleTool env st name args).1 = (handleTool env st' name args).1 ∧
      (handleTool env st name args).1.lastStoriesList =
        (getStories (listEndpointOf env name) env.httpItem
          (args.limit.getD 10)).map (toFormattedStory env.fmtTime)) ∧
    (∀ (env : Env) (st : ServerState) (name : String) (args : ToolArgs)
       (e : String),
      (name = "hn_latest" ∨ name = "hn_top" ∨ name = "hn_best") →
      listEndpointOf env name = .error e →
      (handleTool env st name args).1.lastStoriesList = []) := by
  refine ⟨?_, ?_, ?_⟩
  · intro env st name args h1 h2 h3
    have b1 : ¬ ((name == "hn_latest") = true) :=
      fun hc => h1 (beq_iff_eq.mp hc)
    have b2 : ¬ ((name == "hn_top") = true) :=
      fun hc => h2 (beq_iff_eq.mp hc)
    have b3 : ¬ ((name == "hn_best") = true) :=
      fun hc => h3 (beq_iff_eq.mp hc)
    simp only [handleTool]
    rw [if_neg b1, if_neg b2, if_neg b3]
    split
    · rfl
    · split <;> rfl
  · intro env st st' name args hname
    rcases hname with h | h | h <;> subst h <;> exact ⟨rfl, rfl⟩
  · intro env st name args e hname he
    rcases hname with h | h | h <;> subst h
    · have he' : env.httpNew = .error e := he
      rw [handleTool_latest_red, he']
      rfl
    · have he' : env.httpTop = .error e := he
      rw [handleTool_top_red, he']
      rfl
    · have he' : env.httpBest = .error e := he
      rw [handleTool_best_red, he']
      rfl

/-- C9, witness: an `hn_story` call leaves a non-trivial slot exactly as
it was. -/
theorem session_slot_frame_witness :
    (handleTool envTwo ⟨[fsEx]⟩ "hn_story" { story_id := none }).1 =
      (⟨[fsEx]⟩ : ServerState) :=
  session_slot_frame.1 envTwo ⟨[fsEx]⟩ "hn_story" { story_id := none }
    (by decide) (by decide) (by decide)

/-- C7, counterexample: with the upstream id list `[1, 2, 3]` and the
out-of-range limit `-1`, `hn_latest` fetches and stores the records of
ids `[1, 2]` — two ids, which is not "at most the first `limit` ids"
for `limit = -1` (JS `slice(0, -1)` keeps all but the last element
instead of truncating to nothing). -/
theorem hn_limit_negative_counterexample :
    (handleTool envThree ⟨[]⟩ "hn_latest"
        { limit := some (-1) }).1.lastStoriesList.map (fun r => r.id) =
      [1, 2] ∧
    ¬ (((handleTool envThree ⟨[]⟩ "hn_latest"
        { limit := some (-1) }).1.lastStoriesList.length : Int) ≤ -1) := by
  decide

/-- C7, amended: list operations pass any numeric limit unchanged into
the slice over the id list (no clamping, no rejection); for every
non-negative limit the slice truncates to at most the first `limit`
ids, while for a negative limit JS slice semantics keep all but the
last `|limit|` ids — which can exceed `limit`. -/
theorem hn_limit_passthrough_slice (ids : List Int) (limit : Int)
    (httpItem : Int → Except String (Option Item)) :
    getStories (.ok (some ids)) httpItem limit =
      ((jsSlice ids limit).filterMap (getItemDetails httpItem)).filter
        (fun st => st.type == "story") ∧
    (0 ≤ limit → jsSlice ids limit = ids.take limit.toNat ∧
      ((jsSlice ids limit).length : Int) ≤ limit) ∧
    (limit < 0 →
      jsSlice ids limit = ids.take (ids.length - limit.natAbs)) := by
  refine ⟨rfl, ?_, ?_⟩
  · intro h0
    constructor
    · simp only [jsSlice]
      rw [if_neg (not_lt.mpr h0)]
      rw [List.take_eq_take]
      omega
    · simp only [jsSlice, List.length_take]
      rw [if_neg (not_lt.mpr h0)]
      omega
  · intro hneg
    simp only [jsSlice]
    rw [if_pos hneg]
    congr 1
    omega

/-- C7, witness: the slice at limit `-1` over three ids keeps the first
two. -/
theorem hn_limit_passthrough_slice_witness :
    jsSlice ([1, 2, 3] : List Int) (-1) = [1, 2] := by
  have h := (hn_limit_passthrough_slice [1, 2, 3] (-1)
    envThree.httpItem).2.2 (by decide)
  simpa using h

end HN
